import Mathlib

/-!
# Verification of the pixiu-ops resource-discovery and persistence layer

Shallow embedding of the Go sources of `caoyingjunz/pixiu-ops`:

* `resourcesstore` (`api/server/router/user/menu.go` in the claim map):
  `GetGVRs` builds the kind index (`gvktogvrSet`) and the `gvrs` list from
  the result of the external `ServerPreferredResources` discovery call;
  `ParseKind` resolves a raw kind string against the index.
* `pkg/db` tenant and user stores (`pkg/db/model/plan.go` in the claim map):
  optimistic-concurrency `Update`, `Get`, `Delete` over a relational table,
  modelled as a list of rows.
* `core.kubeConfigs` (`src/unnamed/part_000`): the five KubeConfig
  operations guarded by a nil-client check, modelled with explicit oracle
  environments and an effect log.
* The Watch Cache drop-stale update rule, modelled from the spec (its
  implementation is not among the provided source files).

External library functions the source calls are translated from their
library sources where their behaviour decides a claim:
`strings.ToLower` (ASCII range), `jinzhu/inflection.Singular`,
`schema.ParseGroupVersion`.
-/

namespace PixiuOps

/-! ## Association-list maps (Go `map[string]V` with overwrite-on-insert) -/

/-- Lookup in an association list; entries are consed to the front on
insert, so the first hit is the most recent insertion, matching Go map
overwrite semantics. -/
def alookup {α : Type} : List (String × α) → String → Option α
  | [], _ => none
  | (k, v) :: rest, q => if q = k then some v else alookup rest q

/-! ## `strings.ToLower`, restricted to the ASCII range the source exercises -/

/-- ASCII lower-casing of one character (`strings.ToLower` acts exactly so
on ASCII letters; kind names in the discovery protocol are ASCII). -/
def lowerChar (c : Char) : Char :=
  if 65 ≤ c.toNat ∧ c.toNat ≤ 90 then Char.ofNat (c.toNat + 32) else c

/-- `strings.ToLower` on ASCII strings. -/
def strToLower (s : String) : String :=
  String.mk (s.toList.map lowerChar)

/-! ## `jinzhu/inflection.Singular`

The library compiles three rule families into `compiledSingularMaps`, in
order: the uncountable words (case-insensitive whole-string identity), the
irregular plural→singular pairs (each in UPPER / Title / as-is variants),
and the regular `singularInflections` regex list taken in reverse order
(each again in UPPER / Title / as-is variants, where Title is Go
`strings.Title` applied to the regex text).  `Singular` applies the first
rule whose regex matches, replacing the match; every rule is a suffix
(or, for `^(ox)en`, prefix) pattern of the shape
`group-alternation ++ literal-tail`, replaced by `group ++ literal`.
The rules are transcribed below with the group alternation and tail
alternatives expanded into literals and character classes. -/

/-- One alternative of a rule's captured group: a literal, a
case-insensitive literal (the `(?i)` uncountable rules), or a character
class (`neg = true` for a negated class). -/
inductive GAlt where
  | lit : String → GAlt
  | litCI : String → GAlt
  | cls : Bool → String → GAlt

/-- A compiled inflection rule.  `keepGroup` tells whether the replacement
starts with the captured group (`${1}...`) or is a plain literal (the
irregular pairs).  `endAnchor = false` only for `^(ox)en`. -/
structure SRule where
  startAnchor : Bool
  endAnchor : Bool
  keepGroup : Bool
  alts : List GAlt
  tails : List String
  repl : String

/-- Match one group alternative as a prefix of `cs`, returning the matched
characters. -/
def gmatch : GAlt → List Char → Option (List Char)
  | .lit a, cs => if a.toList.isPrefixOf cs then some a.toList else none
  | .litCI a, cs =>
      let al := a.toList
      let pre := cs.take al.length
      if pre.length = al.length ∧ pre.map lowerChar = al.map lowerChar then some pre else none
  | .cls neg chars, cs =>
      match cs with
      | [] => none
      | c :: _ =>
        if neg then (if chars.toList.contains c then none else some [c])
        else (if chars.toList.contains c then some [c] else none)

/-- Try the tail alternatives in order after a matched group `g`;
`rest` is the input after the group.  On success returns the replacement
of the match (and, for a non-end-anchored rule, the text after it). -/
def tryTails (r : SRule) (g : List Char) (rest : List Char) : List String → Option (List Char)
  | [] => none
  | t :: ts =>
    let tl := t.toList
    if r.endAnchor then
      if rest = tl then some ((if r.keepGroup then g else []) ++ r.repl.toList)
      else tryTails r g rest ts
    else
      if tl.isPrefixOf rest then
        some ((if r.keepGroup then g else []) ++ r.repl.toList ++ rest.drop tl.length)
      else tryTails r g rest ts

/-- Try the group alternatives in order at the current position
(backtracking to the next alternative when no tail fits, as the regex
engine does). -/
def tryAlts (r : SRule) (cs : List Char) : List GAlt → Option (List Char)
  | [] => none
  | a :: as =>
    match gmatch a cs with
    | none => tryAlts r cs as
    | some g =>
      match tryTails r g (cs.drop g.length) r.tails with
      | some res => some res
      | none => tryAlts r cs as

/-- Leftmost application of one rule: scan positions left to right
(only position 0 for a start-anchored rule); on a match, the prefix is
kept and the match replaced. -/
def scanRule (r : SRule) : List Char → Option (List Char)
  | [] => tryAlts r [] r.alts
  | c :: rest =>
    match tryAlts r (c :: rest) r.alts with
    | some res => some res
    | none =>
      if r.startAnchor then none
      else (scanRule r rest).map (fun t => c :: t)

/-- First matching rule wins (`Singular` iterates `compiledSingularMaps`). -/
def applyRules : List SRule → List Char → Option (List Char)
  | [], _ => none
  | r :: rs, cs =>
    match scanRule r cs with
    | some res => some res
    | none => applyRules rs cs

/-- Regular suffix rule `(alts)(tail)$ -> ${1}repl`. -/
def sr (alts : List GAlt) (tails : List String) (repl : String) : SRule :=
  ⟨false, true, true, alts, tails, repl⟩

/-- Start- and end-anchored rule `^(alts)(tail)$ -> ${1}repl`. -/
def srA (alts : List GAlt) (tails : List String) (repl : String) : SRule :=
  ⟨true, true, true, alts, tails, repl⟩

/-- Irregular pair rule `plural$ -> singular` (replacement is a plain
literal, no captured group). -/
def irr (plural singular : String) : SRule :=
  ⟨false, true, false, [.lit plural], [""], singular⟩

/-- Uncountable rule `^(?i)(word)$ -> ${1}` (case-insensitive identity). -/
def unc (w : String) : SRule :=
  ⟨true, true, true, [.litCI w], [""], ""⟩

/-- Literal group alternatives. -/
def lits (ws : List String) : List GAlt := ws.map GAlt.lit

/-- `compiledSingularMaps` of `jinzhu/inflection`, in match order:
uncountables, then irregulars (UPPER / Title / as-is), then the
`singularInflections` list in reverse, each compiled in
UPPER / Title / as-is variants (Title being Go `strings.Title` of the
regex source text, which also capitalises letters that follow a
non-letter regex metacharacter). -/
def compiledSingularRules : List SRule :=
  [ unc "equipment", unc "information", unc "rice", unc "money", unc "species"
  , unc "series", unc "fish", unc "sheep", unc "jeans", unc "police"
  , irr "PEOPLE" "PERSON", irr "People" "Person", irr "people" "person"
  , irr "MEN" "MAN", irr "Men" "Man", irr "men" "man"
  , irr "CHILDREN" "CHILD", irr "Children" "Child", irr "children" "child"
  , irr "SEXES" "SEX", irr "Sexes" "Sex", irr "sexes" "sex"
  , irr "MOVES" "MOVE", irr "Moves" "Move", irr "moves" "move"
  , irr "MOMBIES" "MOMBIE", irr "Mombies" "Mombie", irr "mombies" "mombie"
  -- (database)s$ -> ${1}
  , sr (lits ["DATABASE"]) ["S"] "", sr (lits ["Database"]) ["S"] "", sr (lits ["database"]) ["s"] ""
  -- (quiz)zes$ -> ${1}
  , sr (lits ["QUIZ"]) ["ZES"] "", sr (lits ["Quiz"]) ["Zes"] "", sr (lits ["quiz"]) ["zes"] ""
  -- (matr)ices$ -> ${1}ix
  , sr (lits ["MATR"]) ["ICES"] "IX", sr (lits ["Matr"]) ["Ices"] "Ix", sr (lits ["matr"]) ["ices"] "ix"
  -- (vert|ind)ices$ -> ${1}ex
  , sr (lits ["VERT", "IND"]) ["ICES"] "EX", sr (lits ["Vert", "Ind"]) ["Ices"] "Ex"
  , sr (lits ["vert", "ind"]) ["ices"] "ex"
  -- ^(ox)en -> ${1}   (start-anchored, not end-anchored)
  , ⟨true, false, true, lits ["OX"], ["EN"], ""⟩
  , ⟨true, false, true, lits ["Ox"], ["En"], ""⟩
  , ⟨true, false, true, lits ["ox"], ["en"], ""⟩
  -- (alias|status)(es)?$ -> ${1}
  , sr (lits ["ALIAS", "STATUS"]) ["ES", ""] "", sr (lits ["Alias", "Status"]) ["Es", ""] ""
  , sr (lits ["alias", "status"]) ["es", ""] ""
  -- (octop|vir)(us|i)$ -> ${1}us
  , sr (lits ["OCTOP", "VIR"]) ["US", "I"] "US", sr (lits ["Octop", "Vir"]) ["Us", "I"] "Us"
  , sr (lits ["octop", "vir"]) ["us", "i"] "us"
  -- ^(a)x[ie]s$ -> ${1}xis
  , srA (lits ["A"]) ["XIS", "XES"] "XIS", srA (lits ["A"]) ["XIS", "XeS"] "Xis"
  , srA (lits ["a"]) ["xis", "xes"] "xis"
  -- (cris|test)(is|es)$ -> ${1}is
  , sr (lits ["CRIS", "TEST"]) ["IS", "ES"] "IS", sr (lits ["Cris", "Test"]) ["Is", "Es"] "Is"
  , sr (lits ["cris", "test"]) ["is", "es"] "is"
  -- (shoe)s$ -> ${1}
  , sr (lits ["SHOE"]) ["S"] "", sr (lits ["Shoe"]) ["S"] "", sr (lits ["shoe"]) ["s"] ""
  -- (o)es$ -> ${1}
  , sr (lits ["O"]) ["ES"] "", sr (lits ["O"]) ["Es"] "", sr (lits ["o"]) ["es"] ""
  -- (bus)(es)?$ -> ${1}
  , sr (lits ["BUS"]) ["ES", ""] "", sr (lits ["Bus"]) ["Es", ""] "", sr (lits ["bus"]) ["es", ""] ""
  -- ^(m|l)ice$ -> ${1}ouse
  , srA (lits ["M", "L"]) ["ICE"] "OUSE", srA (lits ["M", "L"]) ["Ice"] "Ouse"
  , srA (lits ["m", "l"]) ["ice"] "ouse"
  -- (x|ch|ss|sh)es$ -> ${1}
  , sr (lits ["X", "CH", "SS", "SH"]) ["ES"] "", sr (lits ["X", "Ch", "Ss", "Sh"]) ["Es"] ""
  , sr (lits ["x", "ch", "ss", "sh"]) ["es"] ""
  -- (c)ookies$ -> ${1}ookie
  , sr (lits ["C"]) ["OOKIES"] "OOKIE", sr (lits ["C"]) ["Ookies"] "Ookie"
  , sr (lits ["c"]) ["ookies"] "ookie"
  -- (m)ovies$ -> ${1}ovie
  , sr (lits ["M"]) ["OVIES"] "OVIE", sr (lits ["M"]) ["Ovies"] "Ovie"
  , sr (lits ["m"]) ["ovies"] "ovie"
  -- (s)eries$ -> ${1}eries
  , sr (lits ["S"]) ["ERIES"] "ERIES", sr (lits ["S"]) ["Eries"] "Eries"
  , sr (lits ["s"]) ["eries"] "eries"
  -- ([^aeiouy]|qu)ies$ -> ${1}y
  , sr [.cls true "AEIOUY", .lit "QU"] ["IES"] "Y", sr [.cls true "Aeiouy", .lit "Qu"] ["Ies"] "Y"
  , sr [.cls true "aeiouy", .lit "qu"] ["ies"] "y"
  -- ([lr])ves$ -> ${1}f
  , sr [.cls false "LR"] ["VES"] "F", sr [.cls false "Lr"] ["Ves"] "F"
  , sr [.cls false "lr"] ["ves"] "f"
  -- (tive)s$ -> ${1}
  , sr (lits ["TIVE"]) ["S"] "", sr (lits ["Tive"]) ["S"] "", sr (lits ["tive"]) ["s"] ""
  -- (hive)s$ -> ${1}
  , sr (lits ["HIVE"]) ["S"] "", sr (lits ["Hive"]) ["S"] "", sr (lits ["hive"]) ["s"] ""
  -- ([^f])ves$ -> ${1}fe
  , sr [.cls true "F"] ["VES"] "FE", sr [.cls true "F"] ["Ves"] "Fe"
  , sr [.cls true "f"] ["ves"] "fe"
  -- (^analy)(sis|ses)$ -> ${1}sis
  , srA (lits ["ANALY"]) ["SIS", "SES"] "SIS", srA (lits ["Analy"]) ["Sis", "Ses"] "Sis"
  , srA (lits ["analy"]) ["sis", "ses"] "sis"
  -- ((a)naly|(b)a|(d)iagno|(p)arenthe|(p)rogno|(s)ynop|(t)he)(sis|ses)$ -> ${1}sis
  , sr (lits ["ANALY", "BA", "DIAGNO", "PARENTHE", "PROGNO", "SYNOP", "THE"]) ["SIS", "SES"] "SIS"
  , sr (lits ["ANaly", "BA", "DIagno", "PArenthe", "PRogno", "SYnop", "THe"]) ["Sis", "Ses"] "Sis"
  , sr (lits ["analy", "ba", "diagno", "parenthe", "progno", "synop", "the"]) ["sis", "ses"] "sis"
  -- ([ti])a$ -> ${1}um
  , sr [.cls false "TI"] ["A"] "UM", sr [.cls false "Ti"] ["A"] "Um"
  , sr [.cls false "ti"] ["a"] "um"
  -- (n)ews$ -> ${1}ews
  , sr (lits ["N"]) ["EWS"] "EWS", sr (lits ["N"]) ["Ews"] "Ews", sr (lits ["n"]) ["ews"] "ews"
  -- (ss)$ -> ${1}
  , sr (lits ["SS"]) [""] "", sr (lits ["Ss"]) [""] "", sr (lits ["ss"]) [""] ""
  -- s$ -> (empty)
  , sr (lits [""]) ["S"] "", sr (lits [""]) ["S"] "", sr (lits [""]) ["s"] "" ]

/-- `inflection.Singular`: apply the first matching compiled rule, else
return the input unchanged. -/
def inflectionSingular (s : String) : String :=
  match applyRules compiledSingularRules s.toList with
  | some res => String.mk res
  | none => s

/-! ## Discovery data model (`resourcesstore`) -/

/-- `schema.GroupVersionResource`: the `Resource` field carries the plural
name, as `GetGVRs` copies `resource.Name` into it. -/
structure GVR where
  group : String
  version : String
  resource : String
deriving DecidableEq, Repr

/-- The fields of `metav1.APIResource` that `GetGVRs` reads. -/
structure APIResource where
  name : String
  kind : String
deriving DecidableEq, Repr

/-- `metav1.APIResourceList`: one group/version worth of discovery data. -/
structure APIResourceList where
  groupVersion : String
  apiResources : List APIResource
deriving DecidableEq, Repr

/-- `schema.ParseGroupVersion`: empty or `"/"` parse to the empty
group/version; by `strings.Count` of `"/"`: no slash means version only,
one slash splits at `strings.Index` of the slash, more than one slash is
an error. -/
def parseGroupVersion (gv : String) : Option (String × String) :=
  if gv.length = 0 ∨ gv = "/" then some ("", "")
  else
    let cs := gv.toList
    match (cs.filter (fun c => c = '/')).length with
    | 0 => some ("", gv)
    | 1 =>
      let i := (cs.takeWhile (fun c => c ≠ '/')).length
      some (String.mk (cs.take i), String.mk (cs.drop (i + 1)))
    | _ => none

/-- The two fields of `resourceGetter` that `GetGVRs` and `ParseKind`
read and write. -/
structure RGState where
  gvrs : List GVR
  gvktogvrSet : List (String × GVR)
deriving DecidableEq, Repr

/-- The result of the external `rg.dcClient.ServerPreferredResources()`
call: the returned resource lists and the returned error value (client-go
reports a non-nil `ErrGroupDiscoveryFailed` whenever the discovery call
for at least one API group fails, alongside the partial lists). -/
structure DiscoveryResult where
  lists : List APIResourceList
  err : Option String
deriving Repr

/-- The body of the `for _, list := range lists` loop of `GetGVRs`:
skip a list with no resources, skip a list whose GroupVersion does not
parse, otherwise append one GVR per resource and insert it into the map
under the lower-cased kind (a Go map insert, so a later resource with
the same lower-cased kind overwrites an earlier one). -/
def gvrStep (acc : List GVR × List (String × GVR)) (list : APIResourceList) :
    List GVR × List (String × GVR) :=
  if list.apiResources.length = 0 then acc
  else
    match parseGroupVersion list.groupVersion with
    | none => acc
    | some (g, v) =>
      list.apiResources.foldl
        (fun acc r =>
          (acc.1 ++ [⟨g, v, r.name⟩], (strToLower r.kind, (⟨g, v, r.name⟩ : GVR)) :: acc.2))
        acc

/-- `(*resourceGetter).GetGVRs`: on a discovery error, return the error
at once (the state is not written); otherwise rebuild `gvrs` and
`gvktogvrSet` from scratch via the loop `gvrStep`. -/
def GetGVRs (rg : RGState) (disc : DiscoveryResult) : RGState × Option String :=
  match disc.err with
  | some e => (rg, some e)
  | none =>
    let result := disc.lists.foldl gvrStep ([], [])
    ({ gvrs := result.1, gvktogvrSet := result.2 }, none)

/-- `(*resourceGetter).ParseKind`: look the lower-cased input up in
`gvktogvrSet`; on a miss, retry with `inflection.Singular` of the
original input; on a second miss return the `"unknown kind"` error
(the Go function then returns the zero GVR alongside the error; the
`Except.error` case models "no descriptor"). -/
def ParseKind (rg : RGState) (kind : String) : Except String GVR :=
  match alookup rg.gvktogvrSet (strToLower kind) with
  | some gvr => Except.ok gvr
  | none =>
    match alookup rg.gvktogvrSet (inflectionSingular kind) with
    | some gvr => Except.ok gvr
    | none => Except.error "unknown kind"

/-! ### Characterization of a discovery pass (spec side)

`listTriples` / `listPairs` restate, list by list, what the spec says a
pass contributes: nothing for an empty or unparseable group list, and
one (group, version, plural-name) triple per resource otherwise, keyed
by the lower-cased kind. -/

/-- The GVR triples one resource list contributes to a pass. -/
def listTriples (l : APIResourceList) : List GVR :=
  if l.apiResources.length = 0 then []
  else
    match parseGroupVersion l.groupVersion with
    | none => []
    | some (g, v) => l.apiResources.map (fun r => ⟨g, v, r.name⟩)

/-- All triples of a pass, in discovery order. -/
def passTriples (lists : List APIResourceList) : List GVR :=
  lists.flatMap listTriples

/-- The (lower-cased kind, GVR) insertions one resource list contributes. -/
def listPairs (l : APIResourceList) : List (String × GVR) :=
  if l.apiResources.length = 0 then []
  else
    match parseGroupVersion l.groupVersion with
    | none => []
    | some (g, v) => l.apiResources.map (fun r => (strToLower r.kind, (⟨g, v, r.name⟩ : GVR)))

/-- All index insertions of a pass, in insertion order. -/
def passPairs (lists : List APIResourceList) : List (String × GVR) :=
  lists.flatMap listPairs

/-! ### Concrete discovery data used by witnesses and counterexamples -/

/-- A pass exposing the core group's `Pod` kind. -/
def podLists : List APIResourceList :=
  [⟨"v1", [⟨"pods", "Pod"⟩]⟩]

/-- The descriptor `podLists` discovery produces for `Pod`. -/
def podGVR : GVR := ⟨"", "v1", "pods"⟩

/-- A discovery outcome where one API group failed (client-go returns
the partial lists together with a non-nil `ErrGroupDiscoveryFailed`). -/
def failedDisc : DiscoveryResult :=
  ⟨[⟨"v1", [⟨"pods", "Pod"⟩]⟩], some "unable to retrieve the complete list of server APIs"⟩

/-- Two groups of the same pass exposing the same kind name `Event`
(as the core and the `events.k8s.io` groups of a real cluster do). -/
def eventLists : List APIResourceList :=
  [⟨"v1", [⟨"events", "Event"⟩]⟩, ⟨"events.k8s.io/v1", [⟨"events", "Event"⟩]⟩]

/-- Two groups of the same pass exposing the same kind name
`NetworkPolicy` (as `extensions` and `networking.k8s.io` once did). -/
def netpolLists : List APIResourceList :=
  [⟨"extensions/v1beta1", [⟨"networkpolicies", "NetworkPolicy"⟩]⟩,
   ⟨"networking.k8s.io/v1", [⟨"networkpolicies", "NetworkPolicy"⟩]⟩]

/-- A collision-free pass: two kinds with distinct lower-cased names. -/
def distinctLists : List APIResourceList :=
  [⟨"v1", [⟨"pods", "Pod"⟩, ⟨"services", "Service"⟩]⟩]

/-! ## Watch cache (drop-stale update rule)

The implementation of the per-type watch cache is not among the provided
source files; the definitions below are modelled from the spec. -/

/-- Modelled from the spec: a watch-cache entry carries an opaque
monotonically increasing version token and the object payload
(namespace and name are the key). -/
structure CacheEntry where
  token : Nat
  payload : String
deriving DecidableEq, Repr

/-- Modelled from the spec: an update event of the change stream for one
object, carrying namespace, name, version token and payload. -/
structure WatchEvent where
  ns : String
  name : String
  token : Nat
  payload : String
deriving DecidableEq, Repr

/-- A watch cache: keyed collection of cached objects for one
(cluster, type) pair; key is (namespace, name). -/
abbrev WCache := List ((String × String) × CacheEntry)

/-- Lookup by (namespace, name). -/
def wlookup (c : WCache) (k : String × String) : Option CacheEntry :=
  match c.find? (fun p => p.1 = k) with
  | some p => some p.2
  | none => none

/-- Remove the entry of a key (used when an entry is replaced). -/
def wremove (c : WCache) (k : String × String) : WCache :=
  c.filter (fun p => p.1 ≠ k)

/-- Modelled from the spec: apply one update event under the drop-stale
rule — the event replaces the entry only if its version token is
strictly greater than the cached entry's token; an event for an uncached
key inserts its entry. -/
def applyEvent (c : WCache) (e : WatchEvent) : WCache :=
  match wlookup c (e.ns, e.name) with
  | none => ((e.ns, e.name), ⟨e.token, e.payload⟩) :: c
  | some entry =>
    if entry.token < e.token then
      ((e.ns, e.name), ⟨e.token, e.payload⟩) :: wremove c (e.ns, e.name)
    else c

/-- Apply a sequence of update events in order. -/
def applyEvents (c : WCache) (es : List WatchEvent) : WCache :=
  es.foldl applyEvent c

/-! ## Relational stores (`pkg/db` tenant and user) -/

/-- A column value as stored through the gorm `Updates` map. -/
inductive DbVal where
  | int : Int → DbVal
  | str : String → DbVal
  | time : Nat → DbVal
deriving DecidableEq, Repr

/-- One stored row of the `tenant` (or `user`) table: the `id` primary
key, the `resource_version` column read by the optimistic-concurrency
`WHERE` clause, the `gmt_modified` timestamp and the remaining columns. -/
structure DbRow where
  id : Int
  resourceVersion : Int
  gmtModified : Nat
  fields : List (String × DbVal)
deriving DecidableEq, Repr

instance : Inhabited DbRow := ⟨⟨0, 0, 0, []⟩⟩

/-- Go map write `m[k] = v`: overwrite the key if present, else add it. -/
def setKV : List (String × DbVal) → String → DbVal → List (String × DbVal)
  | [], k, v => [(k, v)]
  | (k', v') :: rest, k, v =>
    if k' = k then (k, v) :: rest else (k', v') :: setKV rest k v

/-- Write one update-map entry into a row: the `resource_version` and
`gmt_modified` keys write the dedicated columns, every other key writes
its column. -/
def updStep (r : DbRow) (kv : String × DbVal) : DbRow :=
  if kv.1 = "resource_version" then
    match kv.2 with
    | .int n => { r with resourceVersion := n }
    | _ => r
  else if kv.1 = "gmt_modified" then
    match kv.2 with
    | .time t => { r with gmtModified := t }
    | _ => r
  else { r with fields := setKV r.fields kv.1 kv.2 }

/-- Apply a gorm `Updates` map to one row. -/
def applyUpdates (r : DbRow) (ups : List (String × DbVal)) : DbRow :=
  ups.foldl updStep r

/-- Errors of the two stores (`errors.ErrRecordNotFound` for the tenant
store, `dberrors.ErrRecordNotUpdate` for the user store). -/
inductive DbErr where
  | recordNotFound
  | recordNotUpdate
deriving DecidableEq, Repr

/-- Whether a row is hit by `WHERE id = ? and resource_version = ?`. -/
def rowMatches (tid rv : Int) (r : DbRow) : Bool :=
  decide (r.id = tid ∧ r.resourceVersion = rv)

/-- `(*tenant).Update`: set `updates["gmt_modified"]` to now and
`updates["resource_version"]` to `resourceVersion + 1`, then run
`UPDATE ... WHERE id = ? and resource_version = ?`; if no row was
affected return `errors.ErrRecordNotFound`, else nil. -/
def tenantUpdate (db : List DbRow) (tid resourceVersion : Int)
    (updates : List (String × DbVal)) (now : Nat) : List DbRow × Option DbErr :=
  let ups := setKV (setKV updates "gmt_modified" (.time now))
      "resource_version" (.int (resourceVersion + 1))
  if (db.filter (rowMatches tid resourceVersion)).length = 0 then
    (db, some .recordNotFound)
  else
    (db.map (fun r => if rowMatches tid resourceVersion r then applyUpdates r ups else r), none)

/-- `(*user).Update`: identical shape, with `dberrors.ErrRecordNotUpdate`
on zero affected rows. -/
def userUpdate (db : List DbRow) (uid resourceVersion : Int)
    (updates : List (String × DbVal)) (now : Nat) : List DbRow × Option DbErr :=
  let ups := setKV (setKV updates "gmt_modified" (.time now))
      "resource_version" (.int (resourceVersion + 1))
  if (db.filter (rowMatches uid resourceVersion)).length = 0 then
    (db, some .recordNotUpdate)
  else
    (db.map (fun r => if rowMatches uid resourceVersion r then applyUpdates r ups else r), none)

/-- `(*tenant).Get`: `First` on `WHERE id = ?`; a gorm record-not-found
outcome is mapped to `(nil, nil)`.  (The model covers a reachable store:
connection-level failures of gorm are outside it.) -/
def tenantGet (db : List DbRow) (tid : Int) : Option DbRow × Option DbErr :=
  match db.find? (fun r => decide (r.id = tid)) with
  | some r => (some r, none)
  | none => (none, none)

/-- `(*tenant).Delete`: `Get` first; when the object is nil return
`(nil, nil)` without touching the table; otherwise run
`DELETE ... WHERE id = ?` and return the previously fetched object.
Result: (table after, returned object, returned error). -/
def tenantDelete (db : List DbRow) (tid : Int) :
    List DbRow × Option DbRow × Option DbErr :=
  match (tenantGet db tid).1 with
  | none => (db, none, none)
  | some obj => (db.filter (fun r => !decide (r.id = tid)), some obj, none)

/-! ## `core.kubeConfigs` (KubeConfig interface)

Each operation is a function of the receiver state, an oracle
environment standing for the remote cluster and the relational store,
and the call arguments.  Its result is the returned value together with
the list of remote-cluster and database calls it performed, in order.
Pure helpers (`cipher`, `yaml`) are oracles without an effect. -/

/-- `types.KubeConfig`. -/
structure KubeConfigType where
  cloudName : String
  serviceAccount : String
  clusterRole : String
  config : String
  expirationTimestamp : String
deriving DecidableEq, Repr

/-- `model.KubeConfig` (the fields `model2Type`/`type2Model` copy, plus
the `ResourceVersion` read by `Update`). -/
structure KubeConfigModel where
  cloudName : String
  serviceAccount : String
  clusterRole : String
  config : String
  expirationTimestamp : String
  resourceVersion : Int
deriving DecidableEq, Repr

/-- The local `kubeconfig` yaml document, with the single-element
`clusters`/`contexts`/`users` lists of `newConfig` flattened to their
fields. -/
structure Kubeconfig where
  apiVersion : String
  kind : String
  currentContext : String
  clusterName : String
  server : String
  certificateAuthorityData : String
  contextName : String
  contextCluster : String
  contextUser : String
  userName : String
  userToken : String
deriving DecidableEq, Repr

/-- `newConfig`. -/
def newConfig : Kubeconfig :=
  { apiVersion := "v1", kind := "Config", currentContext := "kubernetes"
  , clusterName := "kubernetes", server := "", certificateAuthorityData := ""
  , contextName := "kubernetes", contextCluster := "", contextUser := ""
  , userName := "", userToken := "" }

/-- `(*kubeconfig).setServer`. -/
def setServer (c : Kubeconfig) (server : String) : Kubeconfig :=
  { c with server := server }

/-- `(*kubeconfig).setCA`. -/
def setCA (c : Kubeconfig) (ca : String) : Kubeconfig :=
  { c with certificateAuthorityData := ca }

/-- `(*kubeconfig).setSA`. -/
def setSA (c : Kubeconfig) (saName saToken : String) : Kubeconfig :=
  { c with contextUser := saName, userName := saName, userToken := saToken }

/-- `model2Type`. -/
def model2Type (m : KubeConfigModel) : KubeConfigType :=
  { cloudName := m.cloudName, serviceAccount := m.serviceAccount
  , clusterRole := m.clusterRole, config := m.config
  , expirationTimestamp := m.expirationTimestamp }

/-- `type2Model` (a fresh model row; `ResourceVersion` stays zero). -/
def type2Model (t : KubeConfigType) : KubeConfigModel :=
  { cloudName := t.cloudName, serviceAccount := t.serviceAccount
  , clusterRole := t.clusterRole, config := t.config
  , expirationTimestamp := t.expirationTimestamp, resourceVersion := 0 }

/-- Errors of the KubeConfig operations: the package-level `clientError`
returned on a nil per-cluster client, or an error propagated from a
remote/database/cipher/yaml call. -/
inductive KErr where
  | clientError
  | external : String → KErr
deriving DecidableEq, Repr

/-- A remote-cluster or database call, as logged in order. -/
inductive KEffect where
  | remoteSACreate : String → KEffect
  | remoteCRBCreate : String → KEffect
  | remoteCAGet : KEffect
  | remoteTokenCreate : String → KEffect
  | remoteCRBDelete : String → KEffect
  | remoteSADelete : String → KEffect
  | dbCreate : KEffect
  | dbGet : Int → KEffect
  | dbUpdate : Int → KEffect
  | dbDelete : Int → KEffect
  | dbList : String → KEffect
deriving DecidableEq, Repr

/-- The oracle environment: outcomes of the external calls the
operations make.  `tokenCreate` yields (token, expiration timestamp). -/
structure KCEnv where
  saCreate : String → Except KErr Unit
  crbCreate : String → Except KErr Unit
  caGet : Except KErr String
  tokenCreate : String → Except KErr (String × String)
  crbDelete : String → Except KErr Unit
  saDelete : String → Except KErr Unit
  encrypt : String → Except KErr String
  decrypt : String → Except KErr String
  yamlMarshal : Kubeconfig → Except KErr String
  yamlUnmarshal : String → Except KErr Kubeconfig
  dbCreate : KubeConfigModel → Except KErr Unit
  dbGet : Int → Except KErr KubeConfigModel
  dbUpdate : Int → Int → String → Except KErr Unit
  dbDelete : Int → Except KErr Unit
  dbList : String → Except KErr (List KubeConfigModel)

/-- Result of one operation: the returned value and the logged calls. -/
def KRes (α : Type) : Type := Except KErr α × List KEffect

/-- Sequence a step with the calls it logged. -/
def kbind {α β : Type} (m : KRes α) (f : α → KRes β) : KRes β :=
  match m with
  | (.error e, effs) => (.error e, effs)
  | (.ok a, effs) =>
    match f a with
    | (r, effs2) => (r, effs ++ effs2)

/-- One external call: log its effects, return its outcome. -/
def kstep {α : Type} (effs : List KEffect) (r : Except KErr α) : KRes α := (r, effs)

/-- A pure result. -/
def kpure {α : Type} (a : α) : KRes α := (.ok a, [])

/-- The `kubeConfigs` receiver: the per-cluster client (nil or live) and
the cloud name (`factory` is reached through the oracle environment). -/
structure KubeConfigsState where
  client : Option Unit
  cloud : String

/-- The hard-coded `serverAddr` of `Create`. -/
def serverAddr : String := "https://39.100.127.217:6443"

/-- `(*kubeConfigs).Create`: nil-client guard, then create the service
account and cluster role binding remotely, fetch the CA and a token,
assemble and marshal the kubeconfig, encrypt it and insert the row. -/
def kcCreate (c : KubeConfigsState) (env : KCEnv) (kubeConfig : KubeConfigType) :
    KRes KubeConfigType :=
  match c.client with
  | none => (.error .clientError, [])
  | some _ =>
    kbind (kstep [.remoteSACreate kubeConfig.serviceAccount]
        (env.saCreate kubeConfig.serviceAccount)) fun _ =>
    kbind (kstep [.remoteCRBCreate kubeConfig.serviceAccount]
        (env.crbCreate kubeConfig.serviceAccount)) fun _ =>
    kbind (kstep [.remoteCAGet] env.caGet) fun ca =>
    kbind (kstep [.remoteTokenCreate kubeConfig.serviceAccount]
        (env.tokenCreate kubeConfig.serviceAccount)) fun token =>
    let config := setSA (setCA (setServer newConfig serverAddr) ca)
        kubeConfig.serviceAccount token.1
    kbind (kstep [] (env.yamlMarshal config)) fun configStr =>
    let kc := { kubeConfig with
                cloudName := c.cloud
                config := configStr
                expirationTimestamp := token.2 }
    let obj := type2Model kc
    kbind (kstep [] (env.encrypt configStr)) fun enc =>
    kbind (kstep [.dbCreate] (env.dbCreate { obj with config := enc })) fun _ =>
    kpure kc

/-- `(*kubeConfigs).Update`: nil-client guard, then fetch the row,
decrypt and unmarshal its config, mint a fresh token, re-marshal,
re-encrypt and write the row back with `ResourceVersion + 1`. -/
def kcUpdate (c : KubeConfigsState) (env : KCEnv) (kid : Int) : KRes KubeConfigType :=
  match c.client with
  | none => (.error .clientError, [])
  | some _ =>
    kbind (kstep [.dbGet kid] (env.dbGet kid)) fun obj =>
    kbind (kstep [] (env.decrypt obj.config)) fun configByte =>
    kbind (kstep [] (env.yamlUnmarshal configByte)) fun config0 =>
    kbind (kstep [.remoteTokenCreate obj.serviceAccount]
        (env.tokenCreate obj.serviceAccount)) fun token =>
    let config := setSA config0 obj.serviceAccount token.1
    kbind (kstep [] (env.yamlMarshal config)) fun newConfigByte =>
    kbind (kstep [] (env.encrypt newConfigByte)) fun newConfigEncryptStr =>
    kbind (kstep [.dbUpdate kid]
        (env.dbUpdate kid (obj.resourceVersion + 1) newConfigEncryptStr)) fun _ =>
    kpure { model2Type obj with
            config := newConfigByte
            expirationTimestamp := token.2 }

/-- `(*kubeConfigs).Delete`: nil-client guard, then fetch the row,
delete the cluster role binding and service account remotely, delete
the row. -/
def kcDelete (c : KubeConfigsState) (env : KCEnv) (kid : Int) : KRes Unit :=
  match c.client with
  | none => (.error .clientError, [])
  | some _ =>
    kbind (kstep [.dbGet kid] (env.dbGet kid)) fun obj =>
    kbind (kstep [.remoteCRBDelete obj.serviceAccount]
        (env.crbDelete obj.serviceAccount)) fun _ =>
    kbind (kstep [.remoteSADelete obj.serviceAccount]
        (env.saDelete obj.serviceAccount)) fun _ =>
    kbind (kstep [.dbDelete kid] (env.dbDelete kid)) fun _ =>
    kpure ()

/-- `(*kubeConfigs).Get`: nil-client guard, then fetch the row and
decrypt its config. -/
def kcGet (c : KubeConfigsState) (env : KCEnv) (kid : Int) : KRes KubeConfigType :=
  match c.client with
  | none => (.error .clientError, [])
  | some _ =>
    kbind (kstep [.dbGet kid] (env.dbGet kid)) fun obj =>
    kbind (kstep [] (env.decrypt obj.config)) fun configByte =>
    kpure { model2Type obj with config := configByte }

/-- The loop body of `List`: decrypt each row's config and convert. -/
def kcListLoop (env : KCEnv) : List KubeConfigModel → KRes (List KubeConfigType)
  | [] => kpure []
  | obj :: objs =>
    kbind (kstep [] (env.decrypt obj.config)) fun configByte =>
    kbind (kcListLoop env objs) fun rest =>
    kpure ({ model2Type obj with config := configByte } :: rest)

/-- `(*kubeConfigs).List`: nil-client guard, then list the rows of the
cloud and decrypt each config. -/
def kcList (c : KubeConfigsState) (env : KCEnv) (cloudName : String) :
    KRes (List KubeConfigType) :=
  match c.client with
  | none => (.error .clientError, [])
  | some _ =>
    kbind (kstep [.dbList cloudName] (env.dbList cloudName)) fun objs =>
    kcListLoop env objs

/-- A concrete update event, keyed on one object, whose payload is tied
to its token. -/
def wev (t : Nat) : WatchEvent :=
  ⟨"default", "a", t, "payload-" ++ toString t⟩

/-- A concrete oracle environment (every external call fails), used only
to instantiate witnesses. -/
def failEnv : KCEnv :=
  { saCreate := fun _ => .error (.external "down")
  , crbCreate := fun _ => .error (.external "down")
  , caGet := .error (.external "down")
  , tokenCreate := fun _ => .error (.external "down")
  , crbDelete := fun _ => .error (.external "down")
  , saDelete := fun _ => .error (.external "down")
  , encrypt := fun _ => .error (.external "down")
  , decrypt := fun _ => .error (.external "down")
  , yamlMarshal := fun _ => .error (.external "down")
  , yamlUnmarshal := fun _ => .error (.external "down")
  , dbCreate := fun _ => .error (.external "down")
  , dbGet := fun _ => .error (.external "down")
  , dbUpdate := fun _ _ _ => .error (.external "down")
  , dbDelete := fun _ => .error (.external "down")
  , dbList := fun _ => .error (.external "down") }

/-- A concrete KubeConfig request argument for witnesses. -/
def sampleKC : KubeConfigType :=
  ⟨"c1", "sa1", "cluster-admin", "", ""⟩

/-! # Helper lemmas -/

theorem alookup_append {α : Type} (xs ys : List (String × α)) (k : String) :
    alookup (xs ++ ys) k = (alookup xs k).orElse (fun _ => alookup ys k) := by
  induction xs with
  | nil => simp [alookup]
  | cons p rest ih =>
    obtain ⟨k', v⟩ := p
    by_cases h : k = k' <;> simp [alookup, h, ih]

theorem alookup_of_nodup {α : Type} (ps : List (String × α))
    (hn : (ps.map Prod.fst).Nodup) (k : String) (v : α) (hm : (k, v) ∈ ps) :
    alookup ps k = some v := by
  induction ps with
  | nil => cases hm
  | cons p rest ih =>
    obtain ⟨k', v'⟩ := p
    rw [List.map_cons, List.nodup_cons] at hn
    rcases List.mem_cons.mp hm with heq | hmem
    · cases heq
      simp [alookup]
    · have hk : k ≠ k' := by
        intro h
        subst h
        exact hn.1 (List.mem_map.mpr ⟨(k, v), hmem, rfl⟩)
      simp only [alookup, if_neg hk]
      exact ih hn.2 hmem

theorem foldl_inner_eq (g v : String) (rs : List APIResource)
    (acc : List GVR × List (String × GVR)) :
    rs.foldl (fun acc r =>
        (acc.1 ++ [⟨g, v, r.name⟩], (strToLower r.kind, (⟨g, v, r.name⟩ : GVR)) :: acc.2)) acc
      = (acc.1 ++ rs.map (fun r => ⟨g, v, r.name⟩),
         (rs.map (fun r => (strToLower r.kind, (⟨g, v, r.name⟩ : GVR)))).reverse ++ acc.2) := by
  induction rs generalizing acc with
  | nil => simp
  | cons r rest ih => simp [ih, List.append_assoc]

theorem gvrStep_eq (acc : List GVR × List (String × GVR)) (l : APIResourceList) :
    gvrStep acc l = (acc.1 ++ listTriples l, (listPairs l).reverse ++ acc.2) := by
  rw [gvrStep, listTriples, listPairs]
  by_cases h : l.apiResources.length = 0
  · simp [h]
  · cases hp : parseGroupVersion l.groupVersion with
    | none => simp [h, hp]
    | some gv =>
      obtain ⟨g, v⟩ := gv
      simp [h, hp, foldl_inner_eq]

theorem foldl_gvrStep_eq (lists : List APIResourceList)
    (acc : List GVR × List (String × GVR)) :
    lists.foldl gvrStep acc
      = (acc.1 ++ passTriples lists, (passPairs lists).reverse ++ acc.2) := by
  induction lists generalizing acc with
  | nil => simp [passTriples, passPairs]
  | cons l rest ih =>
    simp [List.foldl_cons, gvrStep_eq, ih, passTriples, passPairs,
      List.flatMap_cons, List.reverse_append, List.append_assoc]

/-- The state a successful discovery pass produces, in closed form. -/
theorem getGVRs_none_eq (rg : RGState) (lists : List APIResourceList) :
    GetGVRs rg ⟨lists, none⟩
      = (⟨passTriples lists, (passPairs lists).reverse⟩, none) := by
  simp [GetGVRs, foldl_gvrStep_eq]

/-! # Claim theorems -/

/-- C1 (counterexample): a discovery pass over a single group exposing
the kind `Pod` resolves `"pod"` to the pod descriptor, but `"Pods"` is
not resolved at all — `ParseKind` lower-cases only the direct lookup,
while the singular retry uses `inflection.Singular` of the original
input, which is `"Pod"`, not a key of the lower-cased index.  So the
four raw inputs of the claim do not all resolve to the descriptor. -/
theorem parseKind_pods_counterexample :
    ParseKind (GetGVRs ⟨[], []⟩ ⟨podLists, none⟩).1 "pod" = .ok podGVR ∧
    inflectionSingular "Pods" = "Pod" ∧
    ParseKind (GetGVRs ⟨[], []⟩ ⟨podLists, none⟩).1 "Pods" = .error "unknown kind" := by
  refine ⟨rfl, by decide, rfl⟩

/-- C1 (amended): for every TypeIndex built by a discovery pass that
maps `"pod"` to the pod descriptor and has no `"pods"` entry,
`ParseKind` returns that same descriptor for the three raw inputs
`"pod"`, `"Pod"` and `"pods"` (the fourth input `"Pods"` of the original
claim fails, as the counterexample shows). -/
theorem parseKind_pod_three_forms (rg0 : RGState) (lists : List APIResourceList) (d : GVR)
    (h1 : alookup (GetGVRs rg0 ⟨lists, none⟩).1.gvktogvrSet "pod" = some d)
    (h2 : alookup (GetGVRs rg0 ⟨lists, none⟩).1.gvktogvrSet "pods" = none) :
    ParseKind (GetGVRs rg0 ⟨lists, none⟩).1 "pod" = .ok d ∧
    ParseKind (GetGVRs rg0 ⟨lists, none⟩).1 "Pod" = .ok d ∧
    ParseKind (GetGVRs rg0 ⟨lists, none⟩).1 "pods" = .ok d := by
  have e1 : strToLower "pod" = "pod" := by decide
  have e2 : strToLower "Pod" = "pod" := by decide
  have e3 : strToLower "pods" = "pods" := by decide
  have e4 : inflectionSingular "pods" = "pod" := by decide
  refine ⟨?_, ?_, ?_⟩ <;> simp [ParseKind, e1, e2, e3, e4, h1, h2]

/-- C1 (witness for the amended theorem). -/
theorem parseKind_pod_three_forms_witness :
    ParseKind (GetGVRs ⟨[], []⟩ ⟨podLists, none⟩).1 "Pod" = .ok podGVR :=
  (parseKind_pod_three_forms ⟨[], []⟩ podLists podGVR (by decide) (by decide)).2.1

/-- C2 (counterexample): a pass in which one group failed — client-go
returns the partial lists together with a non-nil error — is aborted
wholesale: the state is left untouched and the kind of the successfully
discovered group `v1` is not resolvable afterwards, so no union of
successful groups is returned and no failure list is kept. -/
theorem getGVRs_abort_counterexample :
    GetGVRs ⟨[], []⟩ failedDisc
      = (⟨[], []⟩, some "unable to retrieve the complete list of server APIs") ∧
    ParseKind (GetGVRs ⟨[], []⟩ failedDisc).1 "pod" = .error "unknown kind" :=
  ⟨rfl, rfl⟩

/-- C2 (amended): when the discovery call reports an error (client-go
does so whenever at least one group's discovery call fails), `GetGVRs`
returns that error immediately and leaves the resource getter's state
unchanged; the partial lists are discarded, so kinds of the successful
groups do not become resolvable from that pass. -/
theorem getGVRs_error_aborts (rg : RGState) (lists : List APIResourceList) (e : String) :
    GetGVRs rg ⟨lists, some e⟩ = (rg, some e) := rfl

/-- C3: `ParseKind` fails with the `"unknown kind"` error exactly when
both the lookup of the lower-cased input and the retry with
`inflection.Singular` of the input miss, and it returns a descriptor
exactly when the first lookup hits, or misses while the singular retry
hits. -/
theorem parseKind_characterization (rg : RGState) (kind : String) :
    (ParseKind rg kind = .error "unknown kind" ↔
      alookup rg.gvktogvrSet (strToLower kind) = none ∧
      alookup rg.gvktogvrSet (inflectionSingular kind) = none) ∧
    (∀ d : GVR, ParseKind rg kind = .ok d ↔
      (alookup rg.gvktogvrSet (strToLower kind) = some d ∨
       (alookup rg.gvktogvrSet (strToLower kind) = none ∧
        alookup rg.gvktogvrSet (inflectionSingular kind) = some d))) := by
  unfold ParseKind
  rcases h1 : alookup rg.gvktogvrSet (strToLower kind) with _ | d1 <;>
    rcases h2 : alookup rg.gvktogvrSet (inflectionSingular kind) with _ | d2 <;>
    simp

/-- C4 (counterexample): two groups of the same pass exposing the same
kind name: the index entry of the first `NetworkPolicy` resource is
overwritten by the second, so the index does not map the first
resource's lower-cased kind to a descriptor carrying that resource's
own group. -/
theorem getGVRs_collision_counterexample :
    strToLower "NetworkPolicy" = "networkpolicy" ∧
    alookup (GetGVRs ⟨[], []⟩ ⟨netpolLists, none⟩).1.gvktogvrSet "networkpolicy"
      = some ⟨"networking.k8s.io", "v1", "networkpolicies"⟩ ∧
    (⟨"networking.k8s.io", "v1", "networkpolicies"⟩ : GVR)
      ≠ ⟨"extensions", "v1beta1", "networkpolicies"⟩ := by
  refine ⟨by decide, rfl, by decide⟩

/-- C4 (amended): a successful pass returns no error; its GVR list is
exactly the (group, version, plural-name) triples of all resources of
the non-empty, parseable group lists, in order; and its TypeIndex is the
insertion sequence of (lower-cased kind, triple) pairs looked up
last-wins — so each lower-cased kind maps to the triple of the last
resource of the pass carrying that kind (its own triple when no later
resource shares the kind; empty or unparseable group lists contribute
nothing). -/
theorem getGVRs_pass_characterization (rg0 : RGState) (lists : List APIResourceList) :
    (GetGVRs rg0 ⟨lists, none⟩).2 = none ∧
    (GetGVRs rg0 ⟨lists, none⟩).1.gvrs = passTriples lists ∧
    ∀ k, alookup (GetGVRs rg0 ⟨lists, none⟩).1.gvktogvrSet k
        = alookup (passPairs lists).reverse k := by
  simp [getGVRs_none_eq]

/-- C6 (counterexample): keeping only each group's preferred version
does not prevent duplicate kind collisions across groups: a pass with
the kind `Event` in both the core group and `events.k8s.io` maps
`"event"` to the second group's descriptor, overwriting the first, so
the first resource's lookup does not yield its own descriptor. -/
theorem getGVRs_overwrite_counterexample :
    strToLower "Event" = "event" ∧
    alookup (GetGVRs ⟨[], []⟩ ⟨eventLists, none⟩).1.gvktogvrSet "event"
      = some ⟨"events.k8s.io", "v1", "events"⟩ ∧
    (⟨"events.k8s.io", "v1", "events"⟩ : GVR) ≠ ⟨"", "v1", "events"⟩ := by
  refine ⟨by decide, rfl, by decide⟩

/-- C6 (amended): when the lower-cased kinds of all resources of a pass
are pairwise distinct — which one-preferred-version-per-group does not
itself guarantee across groups — the index maps each discovered
resource's lower-cased kind to that resource's own descriptor; no entry
is overwritten. -/
theorem getGVRs_self_lookup_of_distinct (rg0 : RGState) (lists : List APIResourceList)
    (hd : ((passPairs lists).map Prod.fst).Nodup) :
    ∀ p ∈ passPairs lists,
      alookup (GetGVRs rg0 ⟨lists, none⟩).1.gvktogvrSet p.1 = some p.2 := by
  intro p hp
  obtain ⟨k, v⟩ := p
  rw [getGVRs_none_eq rg0 lists]
  show alookup (passPairs lists).reverse k = some v
  apply alookup_of_nodup
  · rw [List.map_reverse]
    exact List.nodup_reverse.mpr hd
  · exact List.mem_reverse.mpr hp

/-- C6 (witness for the amended theorem). -/
theorem getGVRs_self_lookup_witness :
    alookup (GetGVRs ⟨[], []⟩ ⟨distinctLists, none⟩).1.gvktogvrSet "pod" = some podGVR :=
  getGVRs_self_lookup_of_distinct ⟨[], []⟩ distinctLists (by decide) ("pod", podGVR) (by decide)

theorem wlookup_cons (k' : String × String) (ent : CacheEntry) (c : WCache)
    (k : String × String) :
    wlookup (((k', ent)) :: c) k = if k' = k then some ent else wlookup c k := by
  by_cases h : k' = k <;> simp [wlookup, List.find?_cons, h]

theorem wremove_filter_eq (c : WCache) (k' : String × String) :
    List.filter (fun p => !decide (p.1 = k')) c = wremove c k' := by
  simp [wremove, decide_not]

theorem wlookup_wremove_ne (c : WCache) (k k' : String × String) (h : k ≠ k') :
    wlookup (wremove c k') k = wlookup c k := by
  induction c with
  | nil => rfl
  | cons p rest ih =>
    obtain ⟨pk, pe⟩ := p
    show wlookup (List.filter _ ((pk, pe) :: rest)) k = _
    rw [List.filter_cons]
    by_cases hp : pk = k'
    · have hpk : pk ≠ k := by
        rw [hp]
        exact fun hkk => h hkk.symm
      simp only [hp, decide_not, decide_True, Bool.not_true, Bool.false_eq_true, if_false]
      rw [wremove_filter_eq, ih, wlookup_cons, if_neg (hp ▸ hpk)]
    · simp only [hp, decide_not, decide_False, Bool.not_false, if_true]
      rw [wlookup_cons, wlookup_cons]
      by_cases hpk : pk = k
      · simp [hpk]
      · rw [if_neg hpk, if_neg hpk, wremove_filter_eq, ih]

theorem applyEvent_no_regress (c : WCache) (e : WatchEvent) (k : String × String)
    (ent : CacheEntry) (h : wlookup c k = some ent) :
    ∃ ent', wlookup (applyEvent c e) k = some ent' ∧ ent.token ≤ ent'.token := by
  rcases hl : wlookup c (e.ns, e.name) with _ | cur
  · have hae : applyEvent c e = ((e.ns, e.name), ⟨e.token, e.payload⟩) :: c := by
      unfold applyEvent
      rw [hl]
    have hk : (e.ns, e.name) ≠ k := by
      intro hkk
      rw [hkk, h] at hl
      cases hl
    rw [hae, wlookup_cons, if_neg hk]
    exact ⟨ent, h, le_refl _⟩
  · by_cases ht : cur.token < e.token
    · have hae : applyEvent c e
          = ((e.ns, e.name), ⟨e.token, e.payload⟩) :: wremove c (e.ns, e.name) := by
        unfold applyEvent
        rw [hl]
        exact if_pos ht
      rw [hae]
      by_cases hk : k = (e.ns, e.name)
      · subst hk
        rw [h] at hl
        cases hl
        rw [wlookup_cons, if_pos rfl]
        exact ⟨⟨e.token, e.payload⟩, rfl, le_of_lt ht⟩
      · rw [wlookup_cons, if_neg (Ne.symm hk), wlookup_wremove_ne c k _ hk]
        exact ⟨ent, h, le_refl _⟩
    · have hae : applyEvent c e = c := by
        unfold applyEvent
        rw [hl]
        exact if_neg ht
      rw [hae]
      exact ⟨ent, h, le_refl _⟩

/-- C5: applying the update events with tokens `[5, 3, 7, 6]` to an
empty cache under the drop-stale rule yields the same final cache as
applying them sorted as `[3, 5, 6, 7]`, and in general an applied event
never regresses an entry to a smaller version token. -/
theorem watchCache_order_tolerant :
    applyEvents [] [wev 5, wev 3, wev 7, wev 6]
        = applyEvents [] [wev 3, wev 5, wev 6, wev 7] ∧
    (∀ (c : WCache) (e : WatchEvent) (k : String × String) (ent : CacheEntry),
        wlookup c k = some ent →
        ∃ ent', wlookup (applyEvent c e) k = some ent' ∧ ent.token ≤ ent'.token) :=
  ⟨by decide, applyEvent_no_regress⟩

/-- C5 (witness): an entry at token 1 is not regressed by an event. -/
theorem watchCache_order_tolerant_witness :
    ∃ ent', wlookup (applyEvent [(("default", "a"), ⟨1, "p"⟩)] (wev 2)) ("default", "a")
        = some ent' ∧ (⟨1, "p"⟩ : CacheEntry).token ≤ ent'.token :=
  watchCache_order_tolerant.2 [(("default", "a"), ⟨1, "p"⟩)] (wev 2) ("default", "a")
    ⟨1, "p"⟩ (by decide)

theorem updStep_rv_of_ne (r : DbRow) (kv : String × DbVal) (h : kv.1 ≠ "resource_version") :
    (updStep r kv).resourceVersion = r.resourceVersion := by
  unfold updStep
  rw [if_neg h]
  by_cases hg : kv.1 = "gmt_modified"
  · rw [if_pos hg]
    cases kv.2 <;> rfl
  · rw [if_neg hg]

theorem applyUpdates_rv_preserved (ups : List (String × DbVal)) :
    ∀ r : DbRow, (∀ kv ∈ ups, kv.1 ≠ "resource_version") →
      (applyUpdates r ups).resourceVersion = r.resourceVersion := by
  induction ups with
  | nil =>
    intro r _
    rfl
  | cons kv rest ih =>
    intro r h
    have h1 := h kv (List.mem_cons_self _ _)
    have h2 := fun x hx => h x (List.mem_cons_of_mem _ hx)
    show (applyUpdates (updStep r kv) rest).resourceVersion = _
    rw [ih _ h2, updStep_rv_of_ne r kv h1]

theorem setKV_keys_mem {m : List (String × DbVal)} {k k' : String} {v : DbVal}
    (h : k' ∈ (setKV m k v).map Prod.fst) : k' ∈ m.map Prod.fst ∨ k' = k := by
  induction m with
  | nil =>
    simp [setKV] at h
    exact Or.inr h
  | cons p rest ih =>
    obtain ⟨pk, pv⟩ := p
    by_cases hp : pk = k
    · simp only [setKV, if_pos hp, List.map_cons, List.mem_cons] at h
      rcases h with h | h
      · exact Or.inr h
      · exact Or.inl (by simp [h])
    · simp only [setKV, if_neg hp, List.map_cons, List.mem_cons] at h
      rcases h with h | h
      · exact Or.inl (by simp [h])
      · rcases ih h with h' | h'
        · exact Or.inl (by simp [h'])
        · exact Or.inr h'

theorem setKV_keys_nodup (m : List (String × DbVal)) (k : String) (v : DbVal)
    (h : (m.map Prod.fst).Nodup) : ((setKV m k v).map Prod.fst).Nodup := by
  induction m with
  | nil => simp [setKV]
  | cons p rest ih =>
    obtain ⟨pk, pv⟩ := p
    rw [List.map_cons, List.nodup_cons] at h
    by_cases hp : pk = k
    · subst hp
      rw [show setKV ((pk, pv) :: rest) pk v = (pk, v) :: rest from by simp [setKV],
        List.map_cons, List.nodup_cons]
      exact ⟨h.1, h.2⟩
    · simp only [setKV, if_neg hp, List.map_cons, List.nodup_cons]
      refine ⟨fun hmem => ?_, ih h.2⟩
      rcases setKV_keys_mem hmem with hin | heq
      · exact h.1 hin
      · exact hp heq

theorem applyUpdates_setKV_rv (m : List (String × DbVal)) (n : Int) :
    ∀ r : DbRow, (m.map Prod.fst).Nodup →
      (applyUpdates r (setKV m "resource_version" (DbVal.int n))).resourceVersion = n := by
  induction m with
  | nil =>
    intro r _
    rfl
  | cons p rest ih =>
    intro r hnd
    obtain ⟨pk, pv⟩ := p
    rw [List.map_cons, List.nodup_cons] at hnd
    by_cases hp : pk = "resource_version"
    · have hs : setKV ((pk, pv) :: rest) "resource_version" (DbVal.int n)
          = ("resource_version", DbVal.int n) :: rest := by
        simp [setKV, hp]
      rw [hs]
      show (applyUpdates (updStep r ("resource_version", DbVal.int n)) rest).resourceVersion = n
      rw [applyUpdates_rv_preserved rest _ (fun x hx hxk => hnd.1 ?_)]
      · rfl
      · rw [hp, ← hxk]
        exact List.mem_map.mpr ⟨x, hx, rfl⟩
    · have hs : setKV ((pk, pv) :: rest) "resource_version" (DbVal.int n)
          = (pk, pv) :: setKV rest "resource_version" (DbVal.int n) := by
        simp [setKV, hp]
      rw [hs]
      show (applyUpdates (updStep r (pk, pv))
          (setKV rest "resource_version" (DbVal.int n))).resourceVersion = n
      exact ih _ hnd.2

/-- The common behaviour of the optimistic-concurrency `Update` bodies:
stated for any result equal to the body's value, so both stores
instantiate it. -/
theorem optimistic_body_spec (db : List DbRow) (tid rv : Int)
    (ups2 : List (String × DbVal)) (e0 : DbErr)
    (hrv : ∀ r : DbRow, (applyUpdates r ups2).resourceVersion = rv + 1)
    (res : List DbRow × Option DbErr)
    (hres : res = (if (db.filter (rowMatches tid rv)).length = 0 then (db, some e0)
             else (db.map fun r => if rowMatches tid rv r then applyUpdates r ups2 else r,
                   none))) :
    (res.2 = none ↔ ∃ r ∈ db, r.id = tid ∧ r.resourceVersion = rv) ∧
    (res.2 ≠ none → res = (db, some e0)) ∧
    (∀ (i : Nat) (r r' : DbRow), db[i]? = some r → res.1[i]? = some r' →
        r.resourceVersion ≤ r'.resourceVersion ∧
        (r' = r ∨ (r.id = tid ∧ r.resourceVersion = rv ∧ r' = applyUpdates r ups2 ∧
                   r'.resourceVersion = rv + 1))) := by
  subst hres
  by_cases hc : (db.filter (rowMatches tid rv)).length = 0
  · rw [if_pos hc]
    have hnone : ∀ r ∈ db, ¬(r.id = tid ∧ r.resourceVersion = rv) := by
      intro r hr hand
      have hnp := List.filter_eq_nil_iff.mp (List.length_eq_zero.mp hc) r hr
      rw [rowMatches, decide_eq_true_eq] at hnp
      exact hnp hand
    refine ⟨?_, fun _ => rfl, ?_⟩
    · constructor
      · intro hsome
        exact absurd hsome (by simp)
      · rintro ⟨r, hr, h1, h2⟩
        exact absurd ⟨h1, h2⟩ (hnone r hr)
    · intro i r r' h1 h2
      rw [h1] at h2
      cases h2
      exact ⟨le_refl _, Or.inl rfl⟩
  · rw [if_neg hc]
    refine ⟨?_, fun hne => absurd rfl hne, ?_⟩
    · simp only [true_iff]
      have hne : db.filter (rowMatches tid rv) ≠ [] := fun hnil => hc (by rw [hnil]; rfl)
      obtain ⟨x, hx⟩ := List.exists_mem_of_ne_nil _ hne
      have hx2 := List.mem_filter.mp hx
      have hand : x.id = tid ∧ x.resourceVersion = rv := by
        have := hx2.2
        rw [rowMatches, decide_eq_true_eq] at this
        exact this
      exact ⟨x, hx2.1, hand⟩
    · intro i r r' h1 h2
      rw [List.getElem?_map, h1] at h2
      simp only [Option.map_some'] at h2
      injection h2 with h2
      subst h2
      by_cases hm : rowMatches tid rv r = true
      · have hand : r.id = tid ∧ r.resourceVersion = rv := by
          rw [rowMatches, decide_eq_true_eq] at hm
          exact hm
        rw [if_pos hm]
        refine ⟨?_, Or.inr ⟨hand.1, hand.2, rfl, hrv r⟩⟩
        rw [hrv r, hand.2]
        omega
      · rw [if_neg hm]
        exact ⟨le_refl _, Or.inl rfl⟩

/-- C8: for both the tenant and the user store, `Update` succeeds
exactly when a stored row carries the caller's id and resource version;
on failure it returns its error and leaves the table unchanged; and row
by row the update either leaves the row untouched or — exactly for the
rows matching id and version — applies the caller's update map and sets
`resource_version` to `resourceVersion + 1`, so a row's stored version
never decreases and grows by exactly one per successful update.
The hypothesis mirrors that the Go `updates` argument is a map, whose
keys are distinct. -/
theorem dbUpdate_optimistic (db : List DbRow) (tid rv : Int)
    (ups : List (String × DbVal)) (now : Nat)
    (hkeys : (ups.map Prod.fst).Nodup) :
    ((tenantUpdate db tid rv ups now).2 = none ↔
        ∃ r ∈ db, r.id = tid ∧ r.resourceVersion = rv) ∧
    ((tenantUpdate db tid rv ups now).2 ≠ none →
        tenantUpdate db tid rv ups now = (db, some DbErr.recordNotFound)) ∧
    (∀ (i : Nat) (r r' : DbRow), db[i]? = some r →
        (tenantUpdate db tid rv ups now).1[i]? = some r' →
        r.resourceVersion ≤ r'.resourceVersion ∧
        (r' = r ∨ (r.id = tid ∧ r.resourceVersion = rv ∧
          r' = applyUpdates r (setKV (setKV ups "gmt_modified" (DbVal.time now))
            "resource_version" (DbVal.int (rv + 1))) ∧
          r'.resourceVersion = rv + 1))) ∧
    ((userUpdate db tid rv ups now).2 = none ↔
        ∃ r ∈ db, r.id = tid ∧ r.resourceVersion = rv) ∧
    ((userUpdate db tid rv ups now).2 ≠ none →
        userUpdate db tid rv ups now = (db, some DbErr.recordNotUpdate)) ∧
    (∀ (i : Nat) (r r' : DbRow), db[i]? = some r →
        (userUpdate db tid rv ups now).1[i]? = some r' →
        r.resourceVersion ≤ r'.resourceVersion ∧
        (r' = r ∨ (r.id = tid ∧ r.resourceVersion = rv ∧
          r' = applyUpdates r (setKV (setKV ups "gmt_modified" (DbVal.time now))
            "resource_version" (DbVal.int (rv + 1))) ∧
          r'.resourceVersion = rv + 1))) := by
  have hnd2 : ((setKV ups "gmt_modified" (DbVal.time now)).map Prod.fst).Nodup :=
    setKV_keys_nodup _ _ _ hkeys
  have hrv : ∀ r : DbRow,
      (applyUpdates r (setKV (setKV ups "gmt_modified" (DbVal.time now))
        "resource_version" (DbVal.int (rv + 1)))).resourceVersion = rv + 1 :=
    fun r => applyUpdates_setKV_rv _ _ r hnd2
  obtain ⟨a1, a2, a3⟩ := optimistic_body_spec db tid rv _ DbErr.recordNotFound hrv
    (tenantUpdate db tid rv ups now) rfl
  obtain ⟨b1, b2, b3⟩ := optimistic_body_spec db tid rv _ DbErr.recordNotUpdate hrv
    (userUpdate db tid rv ups now) rfl
  exact ⟨a1, a2, a3, b1, b2, b3⟩

/-- C8 (witness): a matching row makes the tenant update succeed. -/
theorem dbUpdate_optimistic_witness :
    (tenantUpdate [⟨1, 0, 0, []⟩] 1 0 [("name", DbVal.str "x")] 5).2 = none ↔
      ∃ r ∈ [(⟨1, 0, 0, []⟩ : DbRow)], r.id = 1 ∧ r.resourceVersion = 0 :=
  (dbUpdate_optimistic [⟨1, 0, 0, []⟩] 1 0 [("name", DbVal.str "x")] 5 (by decide)).1

theorem find?_id_eq_some (db : List DbRow) (tid : Int)
    (hids : (db.map DbRow.id).Nodup) (r : DbRow) (hr : r ∈ db) (hid : r.id = tid) :
    db.find? (fun x => decide (x.id = tid)) = some r := by
  induction db with
  | nil => cases hr
  | cons x rest ih =>
    rw [List.map_cons, List.nodup_cons] at hids
    rcases List.mem_cons.mp hr with heq | hmem
    · subst heq
      rw [List.find?_cons_of_pos _ (by simp [hid])]
    · have hx : x.id ≠ tid := by
        intro hxe
        apply hids.1
        rw [hxe, ← hid]
        exact List.mem_map.mpr ⟨r, hmem, rfl⟩
      rw [List.find?_cons_of_neg _ (by simp [hx])]
      exact ih hids.2 hmem

theorem filter_ne_eq_erase (db : List DbRow) (tid : Int)
    (hids : (db.map DbRow.id).Nodup) (r : DbRow) (hr : r ∈ db) (hid : r.id = tid) :
    db.filter (fun x => !decide (x.id = tid)) = db.erase r := by
  induction db with
  | nil => cases hr
  | cons x rest ih =>
    rw [List.map_cons, List.nodup_cons] at hids
    rcases List.mem_cons.mp hr with heq | hmem
    · subst heq
      rw [List.filter_cons]
      simp only [hid, decide_True, Bool.not_true, Bool.false_eq_true, if_false]
      rw [List.erase_cons_head]
      apply List.filter_eq_self.mpr
      intro a ha
      have hane : a.id ≠ tid := by
        intro hae
        apply hids.1
        rw [hid, ← hae]
        exact List.mem_map.mpr ⟨a, ha, rfl⟩
      simp [hane]
    · have hx : x.id ≠ tid := by
        intro hxe
        apply hids.1
        rw [hxe, ← hid]
        exact List.mem_map.mpr ⟨r, hmem, rfl⟩
      have hxr : x ≠ r := fun hxe => hx (hxe ▸ hid)
      rw [List.filter_cons]
      simp only [show (!decide (x.id = tid)) = true from by simp [hx], if_true]
      rw [ih hids.2 hmem, List.erase_cons]
      simp [hxr]

/-- C9: with `id` a primary key (pairwise distinct stored ids), a `Get`
for an absent id returns `(nil, nil)` — no object and no error — and a
`Delete` for an absent id likewise returns `(nil, nil)` and leaves the
table unchanged; when the tenant exists, `Delete` returns the deleted
object and removes exactly that record. -/
theorem tenantGetDelete_spec (db : List DbRow) (tid : Int)
    (hids : (db.map DbRow.id).Nodup) :
    ((∀ r ∈ db, r.id ≠ tid) →
        tenantGet db tid = (none, none) ∧ tenantDelete db tid = (db, none, none)) ∧
    (∀ r ∈ db, r.id = tid →
        tenantGet db tid = (some r, none) ∧
        tenantDelete db tid = (db.erase r, some r, none) ∧
        r ∉ db.erase r ∧ (∀ x ∈ db, x ≠ r → x ∈ db.erase r)) := by
  constructor
  · intro hno
    have hf : db.find? (fun x => decide (x.id = tid)) = none :=
      List.find?_eq_none.mpr (fun x hx => by simp [hno x hx])
    have hg : tenantGet db tid = (none, none) := by
      unfold tenantGet
      rw [hf]
    refine ⟨hg, ?_⟩
    unfold tenantDelete
    rw [hg]
  · intro r hr hid
    have hf := find?_id_eq_some db tid hids r hr hid
    have hg : tenantGet db tid = (some r, none) := by
      unfold tenantGet
      rw [hf]
    have hfe := filter_ne_eq_erase db tid hids r hr hid
    have hnd : db.Nodup := hids.of_map
    refine ⟨hg, ?_, ?_, ?_⟩
    · unfold tenantDelete
      rw [hg]
      show (db.filter _, some r, none) = _
      rw [hfe]
    · intro hmem
      exact absurd rfl ((hnd.mem_erase_iff.mp hmem).1)
    · intro x hx hxr
      exact (List.mem_erase_of_ne hxr).mpr hx

/-- C9 (witness): a present id is fetched and deleted, an absent one
yields `(nil, nil)`. -/
theorem tenantGetDelete_spec_witness :
    tenantGet [(⟨1, 0, 0, []⟩ : DbRow), ⟨2, 0, 0, []⟩] 1 = (some ⟨1, 0, 0, []⟩, none) :=
  ((tenantGetDelete_spec [⟨1, 0, 0, []⟩, ⟨2, 0, 0, []⟩] 1 (by decide)).2
    ⟨1, 0, 0, []⟩ (by decide) rfl).1

/-- C10: each of the five KubeConfig operations checks the per-cluster
client first: with a nil client it returns `clientError` at once, with
an empty effect log — no remote-cluster call and no database read or
write is performed, so no state is touched. -/
theorem kubeConfigs_nil_client (c : KubeConfigsState) (env : KCEnv)
    (kc : KubeConfigType) (kid : Int) (cloudName : String) (h : c.client = none) :
    kcCreate c env kc = (.error .clientError, []) ∧
    kcUpdate c env kid = (.error .clientError, []) ∧
    kcDelete c env kid = (.error .clientError, []) ∧
    kcGet c env kid = (.error .clientError, []) ∧
    kcList c env cloudName = (.error .clientError, []) := by
  obtain ⟨cl, cloud⟩ := c
  cases h
  exact ⟨rfl, rfl, rfl, rfl, rfl⟩

/-- C10 (witness). -/
theorem kubeConfigs_nil_client_witness :
    kcCreate ⟨none, "c1"⟩ failEnv sampleKC = (.error .clientError, []) ∧
    kcUpdate ⟨none, "c1"⟩ failEnv 1 = (.error .clientError, []) ∧
    kcDelete ⟨none, "c1"⟩ failEnv 1 = (.error .clientError, []) ∧
    kcGet ⟨none, "c1"⟩ failEnv 1 = (.error .clientError, []) ∧
    kcList ⟨none, "c1"⟩ failEnv "c1" = (.error .clientError, []) :=
  kubeConfigs_nil_client ⟨none, "c1"⟩ failEnv sampleKC 1 "c1" rfl

end PixiuOps
